import Mathlib

/-!
# Verification of the AI-Hivemind ledger aggregation and payout flows

Shallow embedding of the three flows the specification's claims are about:

* `supabase/functions/comprehensive-usd-aggregator/index.ts` — scan of the
  18 USD balance tables (`scanAllTablesForUSD`), submission to every
  configured payment provider (`transferToAllProviders`), zeroing of the
  source balances (`zeroOutAllSourceBalances`) and the audit trail emitted
  by `logAudit`, composed in `serve`.
* the `aggregate_usd_to_stripe` edge function (resolver
  `amountToTransferCents`, the `autonomous_revenue_transfers` insert and
  the bounded-retry Stripe submission loop with `getDelay`).
* `automated-full-transfer-scheduler/index.ts` — the admission check
  `shouldRunTransfer`.

Dollar amounts are modelled as `ℚ` (the code computes with JS numbers and
converts to integer cents with `Math.round`, which agrees with Mathlib's
`round` on `ℚ`: both send `q` to `⌊q + 1/2⌋`).  External calls (datastore
reads, balance retrieval, payout submission) are modelled by explicit
outcome parameters: a run of a flow is a pure function of the data those
calls would return.
-/

/-! ## Records and table reads (comprehensive-usd-aggregator) -/

/-- A row read from one of the balance tables: its id and the value of the
configured balance column.  `none` models a SQL NULL / missing field, which
the code coerces to `0` via `Number(record[balanceColumn] || 0)`.  (Values
are assumed numeric-or-null; non-numeric strings, which `Number` would turn
into NaN, are outside the model.) -/
structure SrcRecord where
  rid : Nat
  bal : Option ℚ
deriving Repr, DecidableEq

/-- Outcome of the supabase read of one table, after the configured filters
(and `maybeSingle` for single-row tables) have been applied datastore-side:
an error message (covering both an `error` result and a thrown exception —
the code treats them alike), null data, or the rows. -/
inductive ReadResult where
  | err : String → ReadResult
  | ok : Option (List SrcRecord) → ReadResult
deriving Repr, DecidableEq

/-- The 18 entries of `USD_BALANCE_TABLES`, by table name (the balance /
id columns are the `bal` / `rid` fields of `SrcRecord`; filters are applied
by the datastore before rows reach the scan). -/
def USD_BALANCE_TABLES : List String :=
  ["treasury_accounts", "application_balance", "earnings",
   "consolidated_balances", "consolidated_amounts", "financial_balances",
   "autonomous_revenue_transfers", "autonomous_revenue_transfer_logs",
   "bank_transfers", "fund_transfers", "cash_out_requests",
   "crypto_transactions", "external_payment_transactions",
   "github_repository_earnings", "modern_treasury_accounts",
   "modern_treasury_transfers", "financial_transactions", "balance_transfers"]

/-- `Number(record[balanceColumn] || 0)`. -/
def recAmount (r : SrcRecord) : ℚ := r.bal.getD 0

/-- The per-table total: `for record: if (amount > 0) tableTotal += amount`. -/
def tableTotal (rs : List SrcRecord) : ℚ :=
  rs.foldl (fun acc r => if 0 < recAmount r then acc + recAmount r else acc) 0

/-- One entry of the `sources` array built by the scan. -/
structure SourceEntry where
  table : String
  amount : ℚ
  recordCount : Nat
  records : List SrcRecord
deriving Repr, DecidableEq

/-- The audit actions `logAudit` records, in the aggregator's vocabulary
(`SCAN_STARTED`, `TABLE_SCANNED`, … `BALANCES_ZEROED`). -/
inductive Event where
  | scanStarted
  | tableScanned (table : String)
  | scanCompleted
  | noFunds
  | stripeBalanceCheck
  | stripeNotConfigured
  | stripeInsufficientBalance
  | stripePayoutSuccess
  | stripePayoutFailed
  | paypalPayoutSuccess
  | paypalPayoutFailed
  | paypalError
  | mtSuccess
  | mtFailed
  | mtError
  | bankTransferSuccess
  | bankTransferFailed
  | transfersCompleted
  | sourceZeroed (table : String)
  | balancesZeroed
deriving Repr, DecidableEq

/-- The value returned by `scanAllTablesForUSD` (the `tables_scanned` count
is the constant 18 and is left implicit). -/
structure ScanResult where
  total_amount : ℚ
  sources : List SourceEntry
  breakdown : List (String × ℚ)
  scan_errors : List (String × String)
deriving Repr, DecidableEq

/-- Accumulator of the scan loop, including the `TABLE_SCANNED` audit
events it logs. -/
structure ScanState where
  total : ℚ
  sources : List SourceEntry
  breakdown : List (String × ℚ)
  errors : List (String × String)
  events : List Event
deriving Repr, DecidableEq

/-- One iteration of the scan loop: an erroring read is pushed onto
`scan_errors` and the loop continues; null data is skipped; otherwise the
strictly positive amounts are summed and, when the table total is positive,
the table is recorded as a source (keeping its positive-balance rows),
added to the running total and breakdown, and audited. -/
def scanStep (db : String → ReadResult) (st : ScanState) (t : String) : ScanState :=
  match db t with
  | .err m => { st with errors := st.errors ++ [(t, m)] }
  | .ok none => st
  | .ok (some recs) =>
      let tot := tableTotal recs
      if 0 < tot then
        { st with
          total := st.total + tot
          sources := st.sources ++
            [⟨t, tot, recs.length, recs.filter (fun r => 0 < recAmount r)⟩]
          breakdown := st.breakdown ++ [(t, tot)]
          events := st.events ++ [.tableScanned t] }
      else st

/-- `scanAllTablesForUSD`: fold the scan loop over the configured tables,
returning the aggregation result and the audit events logged on the way. -/
def scanAllTablesForUSD (db : String → ReadResult) : ScanResult × List Event :=
  let st := USD_BALANCE_TABLES.foldl (scanStep db) ⟨0, [], [], [], []⟩
  (⟨st.total, st.sources, st.breakdown, st.errors⟩, st.events)

/-- The strictly positive contribution of one table's read: zero on an
error or null data, otherwise the sum of the strictly positive balance
values. -/
def posContribution (rr : ReadResult) : ℚ :=
  match rr with
  | .err _ => 0
  | .ok none => 0
  | .ok (some rs) => ((rs.map recAmount).filter (fun v => 0 < v)).sum

/-- Replace one table's read outcome (used to state resilience of the scan
to a single failing source). -/
def setTable (db : String → ReadResult) (t : String) (rr : ReadResult) :
    String → ReadResult :=
  fun u => if u = t then rr else db u

theorem tableTotal_eq_posSum (rs : List SrcRecord) :
    tableTotal rs = ((rs.map recAmount).filter (fun v => 0 < v)).sum := by
  have h : ∀ a : ℚ, rs.foldl
      (fun acc r => if 0 < recAmount r then acc + recAmount r else acc) a
      = a + ((rs.map recAmount).filter (fun v => 0 < v)).sum := by
    induction rs with
    | nil => intro a; simp
    | cons r rs ih =>
        intro a
        by_cases hr : 0 < recAmount r
        · simp [List.foldl_cons, hr, ih, add_assoc]
        · simp [List.foldl_cons, hr, ih]
  simpa [tableTotal] using h 0

/-! ## transferToAllProviders (comprehensive-usd-aggregator) -/

/-- Which provider credentials are set in the environment
(`STRIPE_SECRET_KEY`, the PayPal client id/secret pair, the Modern
Treasury key/org pair, `BANK_ACCOUNT_ID`). -/
structure ProviderEnv where
  stripeKey : Bool
  paypalCreds : Bool
  mtCreds : Bool
  bankAccountId : Bool
deriving Repr, DecidableEq

/-- Outcome of one external HTTP call: accepted (`response.ok`), rejected
(`!response.ok`), or thrown (network failure caught by the surrounding
`try`). -/
inductive HttpResult where
  | ok
  | bad
  | thrown (msg : String)
deriving Repr, DecidableEq

/-- What each external call of `transferToAllProviders` would return if
performed.  `Except String _`: `.error` models a thrown exception.
`stripeBalanceUsd` is `(available usd amount || 0) / 100` in dollars. -/
structure Outcomes where
  stripeBalanceUsd : Except String ℚ
  stripePayout : Except String String
  paypalToken : HttpResult
  paypalPayout : HttpResult
  mtOrder : HttpResult
  bankTransfer : Except String String
deriving Repr

/-- An external payout/transfer creation request actually issued, with the
amount it carried.  The Stripe payout, Modern Treasury order and direct
bank transfer carry `amountCents = Math.round(transferAmount * 100)`; the
PayPal item carries `transferAmount.toFixed(2)` dollars, recorded here by
its value in cents (the same cent rounding). -/
structure Submission where
  provider : String
  amountCents : ℤ
deriving Repr, DecidableEq

/-- The mutable `results` object of `transferToAllProviders`, extended with
the list of external submissions issued. -/
structure TransferResults where
  stripeSuccess : Bool
  paypalSuccess : Bool
  mtSuccessFlag : Bool
  bankSuccess : Bool
  successful_transfers : Nat
  failed_transfers : Nat
  total_transferred : ℚ
  submissions : List Submission
deriving Repr, DecidableEq

def emptyResults : TransferResults := ⟨false, false, false, false, 0, 0, 0, []⟩

/-- The Stripe payout block: check the available balance first; create the
payout only when `stripeBalance >= transferAmount && transferAmount >= 0.50`;
a thrown balance retrieval or payout lands in the catch
(`STRIPE_PAYOUT_FAILED`), an insufficient balance or below-minimum amount
only sets an error result (`STRIPE_INSUFFICIENT_BALANCE`, no
`failed_transfers` increment). -/
def stripeStep (env : ProviderEnv) (o : Outcomes) (tAmt : ℚ) (aCents : ℤ)
    (acc : TransferResults × List Event) : TransferResults × List Event :=
  let r := acc.1
  let ev := acc.2
  if env.stripeKey then
    match o.stripeBalanceUsd with
    | .error _ =>
        ({ r with failed_transfers := r.failed_transfers + 1 },
         ev ++ [.stripePayoutFailed])
    | .ok bal =>
        let ev := ev ++ [.stripeBalanceCheck]
        if tAmt ≤ bal ∧ 1/2 ≤ tAmt then
          let r := { r with submissions := r.submissions ++ [Submission.mk "stripe" aCents] }
          match o.stripePayout with
          | .ok _ =>
              ({ r with stripeSuccess := true
                        successful_transfers := r.successful_transfers + 1
                        total_transferred := r.total_transferred + tAmt },
               ev ++ [.stripePayoutSuccess])
          | .error _ =>
              ({ r with failed_transfers := r.failed_transfers + 1 },
               ev ++ [.stripePayoutFailed])
        else
          (r, ev ++ [.stripeInsufficientBalance])
  else (r, ev ++ [.stripeNotConfigured])

/-- The PayPal block: obtain an access token, then create the payout
batch.  A failed token fetch only records a failure (no audit event); a
thrown call anywhere in the block lands in the catch (`PAYPAL_ERROR`).
Unconfigured credentials only set an error result. -/
def paypalStep (env : ProviderEnv) (o : Outcomes) (aCents : ℤ)
    (acc : TransferResults × List Event) : TransferResults × List Event :=
  let r := acc.1
  let ev := acc.2
  if env.paypalCreds then
    match o.paypalToken with
    | .thrown _ =>
        ({ r with failed_transfers := r.failed_transfers + 1 }, ev ++ [.paypalError])
    | .bad =>
        ({ r with failed_transfers := r.failed_transfers + 1 }, ev)
    | .ok =>
        let r := { r with submissions := r.submissions ++ [Submission.mk "paypal" aCents] }
        match o.paypalPayout with
        | .ok =>
            ({ r with paypalSuccess := true
                      successful_transfers := r.successful_transfers + 1
                      total_transferred := r.total_transferred + (aCents : ℚ) / 100 },
             ev ++ [.paypalPayoutSuccess])
        | .bad =>
            ({ r with failed_transfers := r.failed_transfers + 1 },
             ev ++ [.paypalPayoutFailed])
        | .thrown _ =>
            ({ r with failed_transfers := r.failed_transfers + 1 }, ev ++ [.paypalError])
  else (r, ev)

/-- The Modern Treasury block: the payment-order POST is issued whenever
the credentials are configured, regardless of any earlier provider's
outcome. -/
def mtStep (env : ProviderEnv) (o : Outcomes) (tAmt : ℚ) (aCents : ℤ)
    (acc : TransferResults × List Event) : TransferResults × List Event :=
  let r := acc.1
  let ev := acc.2
  if env.mtCreds then
    let r := { r with submissions := r.submissions ++ [Submission.mk "modern_treasury" aCents] }
    match o.mtOrder with
    | .ok =>
        ({ r with mtSuccessFlag := true
                  successful_transfers := r.successful_transfers + 1
                  total_transferred := r.total_transferred + tAmt },
         ev ++ [.mtSuccess])
    | .bad =>
        ({ r with failed_transfers := r.failed_transfers + 1 }, ev ++ [.mtFailed])
    | .thrown _ =>
        ({ r with failed_transfers := r.failed_transfers + 1 }, ev ++ [.mtError])
  else (r, ev)

/-- The direct bank transfer block, a fallback attempted only when the
Stripe key and a bank account id are configured and the Stripe payout did
not succeed (`results.stripe?.success !== true`). -/
def bankStep (env : ProviderEnv) (o : Outcomes) (tAmt : ℚ) (aCents : ℤ)
    (acc : TransferResults × List Event) : TransferResults × List Event :=
  let r := acc.1
  let ev := acc.2
  if env.stripeKey ∧ env.bankAccountId ∧ r.stripeSuccess = false then
    let r := { r with submissions := r.submissions ++ [Submission.mk "bank_direct" aCents] }
    match o.bankTransfer with
    | .ok _ =>
        ({ r with bankSuccess := true
                  successful_transfers := r.successful_transfers + 1
                  total_transferred := r.total_transferred + tAmt },
         ev ++ [.bankTransferSuccess])
    | .error _ =>
        ({ r with failed_transfers := r.failed_transfers + 1 },
         ev ++ [.bankTransferFailed])
  else (r, ev)

/-- `transferToAllProviders`: `transferAmount = aggregatedUSD.total_amount`
and `amountCents = Math.round(transferAmount * 100)`; the four provider
blocks run in sequence. -/
def transferToAllProviders (env : ProviderEnv) (o : Outcomes) (scan : ScanResult) :
    TransferResults × List Event :=
  let tAmt := scan.total_amount
  let aCents := round (tAmt * 100)
  bankStep env o tAmt aCents
    (mtStep env o tAmt aCents
      (paypalStep env o aCents
        (stripeStep env o tAmt aCents (emptyResults, []))))

/-! ## zeroOutAllSourceBalances and serve -/

/-- The contributing set of a scan: every positive-balance record of every
source found, identified by `(table, id)`. -/
def contributing (scan : ScanResult) : List (String × Nat) :=
  scan.sources.flatMap (fun s => s.records.map (fun r => (s.table, r.rid)))

/-- `zeroOutAllSourceBalances`: for every source, for every record an
`update { [balanceColumn]: 0 }` is issued on that record's id, and a
`SOURCE_ZEROED` audit entry is logged per source.  The supabase update's
result object is ignored by the code (the builder reports failures in its
return value instead of throwing), so every update is issued
unconditionally: consumption is the list of issued updates. -/
def zeroOutAllSourceBalances (sources : List SourceEntry) :
    List (String × Nat) × List Event :=
  (sources.flatMap (fun s => s.records.map (fun r => (s.table, r.rid))),
   sources.map (fun s => .sourceZeroed s.table))

/-- The HTTP response of one invocation of the aggregator, as far as the
claims are concerned. -/
structure ServeResponse where
  success : Bool
  status : Nat
deriving Repr, DecidableEq

/-- Everything one invocation of the aggregator's `serve` handler did:
the response, the transfer results, the zeroed (consumed) records, the
ordered audit trail, and whether `saveAuditLog`'s inserts succeeded
(`saveAuditLog` catches and discards its own errors). -/
structure ServeRun where
  response : ServeResponse
  results : TransferResults
  consumed : List (String × Nat)
  events : List Event
  auditSaved : Bool
deriving Repr, DecidableEq

/-- The aggregator's `serve` handler: scan all tables; on a non-positive
total answer `success:false` / 400 (`NO_FUNDS`); otherwise transfer to all
providers, zero out every source balance when at least one transfer
succeeded, save the audit log (its failure, `auditSaveOk = false`, is
swallowed) and answer `success:true` / 200. -/
def serveAggregator (env : ProviderEnv) (o : Outcomes) (db : String → ReadResult)
    (auditSaveOk : Bool) : ServeRun :=
  let scanned := scanAllTablesForUSD db
  let scan := scanned.1
  let ev := [Event.scanStarted] ++ scanned.2 ++ [Event.scanCompleted]
  if scan.total_amount ≤ 0 then
    { response := ⟨false, 400⟩, results := emptyResults, consumed := [],
      events := ev ++ [.noFunds], auditSaved := auditSaveOk }
  else
    let tr := transferToAllProviders env o scan
    let ev := ev ++ tr.2 ++ [Event.transfersCompleted]
    if 0 < tr.1.successful_transfers then
      let zeroed := zeroOutAllSourceBalances scan.sources
      { response := ⟨true, 200⟩, results := tr.1, consumed := zeroed.1,
        events := ev ++ zeroed.2 ++ [.balancesZeroed], auditSaved := auditSaveOk }
    else
      { response := ⟨true, 200⟩, results := tr.1, consumed := [],
        events := ev, auditSaved := auditSaveOk }

/-! ## Scan lemmas -/

theorem posContribution_nonneg (rr : ReadResult) : 0 ≤ posContribution rr := by
  match rr with
  | .err _ => simp [posContribution]
  | .ok none => simp [posContribution]
  | .ok (some rs) =>
      refine List.sum_nonneg ?_
      intro v hv
      have := List.of_mem_filter hv
      have : 0 < v := by simpa using this
      exact le_of_lt this

theorem scanStep_total (db : String → ReadResult) (st : ScanState) (t : String) :
    (scanStep db st t).total = st.total + posContribution (db t) := by
  unfold scanStep
  match h : db t with
  | .err m => simp [posContribution]
  | .ok none => simp [posContribution]
  | .ok (some rs) =>
      by_cases hp : 0 < tableTotal rs
      · simp only [if_pos hp, posContribution]
        rw [tableTotal_eq_posSum]
      · have h0 : ((rs.map recAmount).filter (fun v => 0 < v)).sum = 0 := by
          have hle : tableTotal rs ≤ 0 := le_of_not_lt hp
          rw [tableTotal_eq_posSum] at hle
          have hge : 0 ≤ ((rs.map recAmount).filter (fun v => 0 < v)).sum :=
            posContribution_nonneg (.ok (some rs))
          linarith
        simp [if_neg hp, posContribution, h0]

theorem scanStep_errors (db : String → ReadResult) (st : ScanState) (t : String) :
    (scanStep db st t).errors = st.errors ++
      (match db t with | .err m => [(t, m)] | _ => []) := by
  unfold scanStep
  match h : db t with
  | .err m => simp
  | .ok none => simp
  | .ok (some rs) => by_cases hp : 0 < tableTotal rs <;> simp [hp]

theorem scanStep_breakdown (db : String → ReadResult) (st : ScanState) (t : String) :
    ∃ l, (scanStep db st t).breakdown = st.breakdown ++ l
      ∧ ∀ p ∈ l, 0 < p.2 ∧ p.2 = posContribution (db p.1) := by
  unfold scanStep
  match h : db t with
  | .err m => exact ⟨[], by simp, by simp⟩
  | .ok none => exact ⟨[], by simp, by simp⟩
  | .ok (some rs) =>
      by_cases hp : 0 < tableTotal rs
      · refine ⟨[(t, tableTotal rs)], by simp [hp], ?_⟩
        intro p hp'
        have hpe : p = (t, tableTotal rs) := by simpa using hp'
        subst hpe
        exact ⟨hp, by simp [posContribution, h, tableTotal_eq_posSum]⟩
      · exact ⟨[], by simp [hp], by simp⟩

theorem scanStep_events (db : String → ReadResult) (st : ScanState) (t : String) :
    ∃ l, (scanStep db st t).events = st.events ++ l
      ∧ ∀ e ∈ l, ∃ u, e = Event.tableScanned u := by
  unfold scanStep
  match h : db t with
  | .err m => exact ⟨[], by simp, by simp⟩
  | .ok none => exact ⟨[], by simp, by simp⟩
  | .ok (some rs) =>
      by_cases hp : 0 < tableTotal rs
      · refine ⟨[Event.tableScanned t], by simp [hp], ?_⟩
        intro e he
        have : e = Event.tableScanned t := by simpa using he
        exact ⟨t, this⟩
      · exact ⟨[], by simp [hp], by simp⟩

theorem scanFold_total (db : String → ReadResult) :
    ∀ (ts : List String) (st : ScanState),
      (ts.foldl (scanStep db) st).total
        = st.total + (ts.map (fun t => posContribution (db t))).sum := by
  intro ts
  induction ts with
  | nil => intro st; simp
  | cons t ts ih =>
      intro st
      simp only [List.foldl_cons, List.map_cons, List.sum_cons]
      rw [ih, scanStep_total]
      ring

theorem scanFold_errors (db : String → ReadResult) :
    ∀ (ts : List String) (st : ScanState),
      (ts.foldl (scanStep db) st).errors
        = st.errors ++ ts.filterMap (fun t =>
            match db t with | .err m => some (t, m) | _ => none) := by
  intro ts
  induction ts with
  | nil => intro st; simp
  | cons t ts ih =>
      intro st
      simp only [List.foldl_cons, List.filterMap_cons]
      rw [ih, scanStep_errors]
      match h : db t with
      | .err m => simp
      | .ok none => simp
      | .ok (some rs) => simp

theorem scanFold_breakdown (db : String → ReadResult) :
    ∀ (ts : List String) (st : ScanState),
      ∀ p ∈ (ts.foldl (scanStep db) st).breakdown,
        p ∈ st.breakdown ∨ (0 < p.2 ∧ p.2 = posContribution (db p.1)) := by
  intro ts
  induction ts with
  | nil => intro st p hp; exact Or.inl hp
  | cons t ts ih =>
      intro st p hp
      simp only [List.foldl_cons] at hp
      rcases ih (scanStep db st t) p hp with hmem | hnew
      · rcases scanStep_breakdown db st t with ⟨l, hl, hall⟩
        rw [hl] at hmem
        rcases List.mem_append.1 hmem with hold | hl'
        · exact Or.inl hold
        · exact Or.inr (hall p hl')
      · exact Or.inr hnew

theorem scanFold_events (db : String → ReadResult) :
    ∀ (ts : List String) (st : ScanState),
      ∃ l, (ts.foldl (scanStep db) st).events = st.events ++ l
        ∧ ∀ e ∈ l, ∃ t, e = Event.tableScanned t := by
  intro ts
  induction ts with
  | nil => intro st; exact ⟨[], by simp, by simp⟩
  | cons t ts ih =>
      intro st
      simp only [List.foldl_cons]
      rcases ih (scanStep db st t) with ⟨l, hl, hall⟩
      rcases scanStep_events db st t with ⟨l0, hl0, hall0⟩
      refine ⟨l0 ++ l, ?_, ?_⟩
      · rw [hl, hl0, List.append_assoc]
      · intro e he
        rcases List.mem_append.1 he with he | he
        · exact hall0 e he
        · exact hall e he

theorem sum_map_ite_zero (L : List String) (t : String) (f : String → ℚ) :
    (L.map (fun u => if u = t then 0 else f u)).sum
      = ((L.filter (fun u => u ≠ t)).map f).sum := by
  induction L with
  | nil => simp
  | cons u L ih =>
      by_cases hu : u = t
      · subst hu; simp [ih]
      · simp [hu, ih]

/-! ## Claim C6: the scan total is the sum of the strictly positive values -/

/-- C6.  For every scan, `total_amount` equals the sum over the configured
sources of the sum of the strictly positive values of that source's balance
field (zero on an erroring or empty read), and every per-source breakdown
entry is strictly positive and equal to that source's sum of strictly
positive values — zero and negative values never contribute. -/
theorem scan_total_amount_eq_sum_positives (db : String → ReadResult) :
    (scanAllTablesForUSD db).1.total_amount
      = (USD_BALANCE_TABLES.map (fun t => posContribution (db t))).sum
    ∧ ∀ p ∈ (scanAllTablesForUSD db).1.breakdown,
        0 < p.2 ∧ p.2 = posContribution (db p.1) := by
  constructor
  · show (USD_BALANCE_TABLES.foldl (scanStep db) ⟨0, [], [], [], []⟩).total = _
    rw [scanFold_total]
    simp
  · intro p hp
    have hmem : p ∈ (USD_BALANCE_TABLES.foldl (scanStep db) ⟨0, [], [], [], []⟩).breakdown := hp
    rcases scanFold_breakdown db USD_BALANCE_TABLES ⟨0, [], [], [], []⟩ p hmem with hfalse | hok
    · simp at hfalse
    · exact hok

/-! ## Claim C8: a single source's read failure is recorded and never
aborts the scan -/

/-- C8.  The scan's `scan_errors` lists exactly the sources whose read
failed, with their error messages; and for any source `t`, replacing `t`'s
read by a failure leaves `(t, m)` recorded in `scan_errors` while the scan
of the remaining sources continues: the total becomes exactly the sum of
the contributions of all other sources (the failed source contributes
zero). -/
theorem scan_error_isolated_per_source (db : String → ReadResult) :
    (scanAllTablesForUSD db).1.scan_errors
      = USD_BALANCE_TABLES.filterMap (fun t =>
          match db t with | .err m => some (t, m) | _ => none)
    ∧ ∀ t m, t ∈ USD_BALANCE_TABLES →
        (t, m) ∈ (scanAllTablesForUSD (setTable db t (.err m))).1.scan_errors
        ∧ (scanAllTablesForUSD (setTable db t (.err m))).1.total_amount
            = ((USD_BALANCE_TABLES.filter (fun u => u ≠ t)).map
                (fun u => posContribution (db u))).sum := by
  constructor
  · show (USD_BALANCE_TABLES.foldl (scanStep db) ⟨0, [], [], [], []⟩).errors = _
    rw [scanFold_errors]
    simp
  · intro t m ht
    constructor
    · show (t, m) ∈ (USD_BALANCE_TABLES.foldl (scanStep (setTable db t (.err m)))
        ⟨0, [], [], [], []⟩).errors
      rw [scanFold_errors]
      simp only [List.nil_append]
      refine List.mem_filterMap.2 ⟨t, ht, ?_⟩
      simp [setTable]
    · show (USD_BALANCE_TABLES.foldl (scanStep (setTable db t (.err m)))
        ⟨0, [], [], [], []⟩).total = _
      rw [scanFold_total]
      have hfun : (fun u => posContribution (setTable db t (.err m) u))
          = fun u => if u = t then 0 else posContribution (db u) := by
        funext u
        by_cases hu : u = t
        · simp [setTable, hu, posContribution]
        · simp [setTable, hu]
      rw [hfun, sum_map_ite_zero]
      simp

/-! ## Transfer block lemmas -/

/-- Whether the Stripe payout is submitted: key configured, balance
retrieval did not throw, `stripeBalance >= transferAmount` and
`transferAmount >= 0.50`. -/
def stripeSubmits (env : ProviderEnv) (o : Outcomes) (tAmt : ℚ) : Bool :=
  env.stripeKey &&
    (match o.stripeBalanceUsd with
     | .error _ => false
     | .ok bal => decide (tAmt ≤ bal) && decide ((1 : ℚ)/2 ≤ tAmt))

/-- Whether the Stripe payout is submitted and accepted. -/
def stripeSucceeds (env : ProviderEnv) (o : Outcomes) (tAmt : ℚ) : Bool :=
  stripeSubmits env o tAmt &&
    (match o.stripePayout with | .ok _ => true | .error _ => false)

/-- Whether the PayPal payout batch is submitted (credentials configured
and the token fetch returned ok). -/
def paypalSubmits (env : ProviderEnv) (o : Outcomes) : Bool :=
  env.paypalCreds && (match o.paypalToken with | .ok => true | _ => false)

/-- Whether the direct bank transfer is submitted: Stripe key and bank
account configured, and the Stripe payout did not succeed. -/
def bankSubmits (env : ProviderEnv) (o : Outcomes) (tAmt : ℚ) : Bool :=
  env.stripeKey && env.bankAccountId && !stripeSucceeds env o tAmt

/-- Audit events marking a provider's accepted transfer. -/
def isSuccessEvent : Event → Bool
  | .stripePayoutSuccess => true
  | .paypalPayoutSuccess => true
  | .mtSuccess => true
  | .bankTransferSuccess => true
  | _ => false

/-- Audit events marking consumption of source balances. -/
def isConsumeEvent : Event → Bool
  | .sourceZeroed _ => true
  | .balancesZeroed => true
  | _ => false

theorem stripeStep_submissions (env : ProviderEnv) (o : Outcomes) (tAmt : ℚ)
    (aCents : ℤ) (acc : TransferResults × List Event) :
    (stripeStep env o tAmt aCents acc).1.submissions
      = acc.1.submissions ++
          (if stripeSubmits env o tAmt then [Submission.mk "stripe" aCents] else []) := by
  unfold stripeStep stripeSubmits
  by_cases hk : env.stripeKey
  · match h : o.stripeBalanceUsd with
    | .error _ => simp [hk]
    | .ok bal =>
        by_cases hb : tAmt ≤ bal
        · by_cases hm : (2 : ℚ)⁻¹ ≤ tAmt
          · match hp : o.stripePayout with
            | .ok _ => simp [hk, hb, hm]
            | .error _ => simp [hk, hb, hm]
          · simp [hk, hb, hm]
        · simp [hk, hb]
  · simp [hk]

theorem stripeStep_flag (env : ProviderEnv) (o : Outcomes) (tAmt : ℚ)
    (aCents : ℤ) (acc : TransferResults × List Event) :
    (stripeStep env o tAmt aCents acc).1.stripeSuccess
      = (acc.1.stripeSuccess || stripeSucceeds env o tAmt) := by
  unfold stripeStep stripeSucceeds stripeSubmits
  by_cases hk : env.stripeKey
  · match h : o.stripeBalanceUsd with
    | .error _ => simp [hk]
    | .ok bal =>
        by_cases hb : tAmt ≤ bal
        · by_cases hm : (2 : ℚ)⁻¹ ≤ tAmt
          · match hp : o.stripePayout with
            | .ok _ => simp [hk, hb, hm]
            | .error _ => simp [hk, hb, hm]
          · simp [hk, hb, hm]
        · simp [hk, hb]
  · simp [hk]

theorem paypalStep_submissions (env : ProviderEnv) (o : Outcomes)
    (aCents : ℤ) (acc : TransferResults × List Event) :
    (paypalStep env o aCents acc).1.submissions
      = acc.1.submissions ++
          (if paypalSubmits env o then [Submission.mk "paypal" aCents] else []) := by
  unfold paypalStep paypalSubmits
  by_cases hk : env.paypalCreds
  · match h : o.paypalToken with
    | .thrown _ => simp [hk]
    | .bad => simp [hk]
    | .ok =>
        match hp : o.paypalPayout with
        | .ok => simp [hk]
        | .bad => simp [hk]
        | .thrown _ => simp [hk]
  · simp [hk]

theorem paypalStep_flag (env : ProviderEnv) (o : Outcomes)
    (aCents : ℤ) (acc : TransferResults × List Event) :
    (paypalStep env o aCents acc).1.stripeSuccess = acc.1.stripeSuccess := by
  unfold paypalStep
  by_cases hk : env.paypalCreds
  · match h : o.paypalToken with
    | .thrown _ => simp [hk]
    | .bad => simp [hk]
    | .ok =>
        match hp : o.paypalPayout with
        | .ok => simp [hk]
        | .bad => simp [hk]
        | .thrown _ => simp [hk]
  · simp [hk]

theorem mtStep_submissions (env : ProviderEnv) (o : Outcomes) (tAmt : ℚ)
    (aCents : ℤ) (acc : TransferResults × List Event) :
    (mtStep env o tAmt aCents acc).1.submissions
      = acc.1.submissions ++
          (if env.mtCreds then [Submission.mk "modern_treasury" aCents] else []) := by
  unfold mtStep
  by_cases hk : env.mtCreds
  · match h : o.mtOrder with
    | .ok => simp [hk]
    | .bad => simp [hk]
    | .thrown _ => simp [hk]
  · simp [hk]

theorem mtStep_flag (env : ProviderEnv) (o : Outcomes) (tAmt : ℚ)
    (aCents : ℤ) (acc : TransferResults × List Event) :
    (mtStep env o tAmt aCents acc).1.stripeSuccess = acc.1.stripeSuccess := by
  unfold mtStep
  by_cases hk : env.mtCreds
  · match h : o.mtOrder with
    | .ok => simp [hk]
    | .bad => simp [hk]
    | .thrown _ => simp [hk]
  · simp [hk]

theorem bankStep_submissions (env : ProviderEnv) (o : Outcomes) (tAmt : ℚ)
    (aCents : ℤ) (acc : TransferResults × List Event) :
    (bankStep env o tAmt aCents acc).1.submissions
      = acc.1.submissions ++
          (if env.stripeKey ∧ env.bankAccountId ∧ acc.1.stripeSuccess = false then
            [Submission.mk "bank_direct" aCents] else []) := by
  unfold bankStep
  by_cases hc : env.stripeKey ∧ env.bankAccountId ∧ acc.1.stripeSuccess = false
  · match h : o.bankTransfer with
    | .ok _ => simp [hc]
    | .error _ => simp [hc]
  · simp [hc]

/-- The executor's submission list in closed form: the Stripe payout when
configured with sufficient balance, the PayPal batch when the token fetch
succeeded, the Modern Treasury order whenever configured, the direct bank
transfer when Stripe is configured with a bank account and the Stripe
payout did not succeed — each carrying the full `amountCents`. -/
theorem transfer_submissions_closed (env : ProviderEnv) (o : Outcomes)
    (scan : ScanResult) :
    (transferToAllProviders env o scan).1.submissions
      = (if stripeSubmits env o scan.total_amount then
           [Submission.mk "stripe" (round (scan.total_amount * 100))] else [])
        ++ (if paypalSubmits env o then
           [Submission.mk "paypal" (round (scan.total_amount * 100))] else [])
        ++ (if env.mtCreds then
           [Submission.mk "modern_treasury" (round (scan.total_amount * 100))] else [])
        ++ (if bankSubmits env o scan.total_amount then
           [Submission.mk "bank_direct" (round (scan.total_amount * 100))] else []) := by
  unfold transferToAllProviders
  rw [bankStep_submissions, mtStep_submissions, paypalStep_submissions,
    stripeStep_submissions]
  rw [mtStep_flag, paypalStep_flag, stripeStep_flag]
  have hflag : (emptyResults.stripeSuccess || stripeSucceeds env o scan.total_amount)
      = stripeSucceeds env o scan.total_amount := by
    simp [emptyResults]
  rw [hflag]
  unfold bankSubmits
  by_cases hs : stripeSucceeds env o scan.total_amount
  · simp [emptyResults, hs]
  · simp only [Bool.not_eq_true] at hs
    simp [emptyResults, hs]

theorem bankStep_flagPreserve (env : ProviderEnv) (o : Outcomes) (tAmt : ℚ)
    (aCents : ℤ) (acc : TransferResults × List Event) :
    (bankStep env o tAmt aCents acc).1.stripeSuccess = acc.1.stripeSuccess := by
  unfold bankStep
  by_cases hc : env.stripeKey ∧ env.bankAccountId ∧ acc.1.stripeSuccess = false
  · match h : o.bankTransfer with
    | .ok _ => simp [hc]
    | .error _ => simp [hc]
  · simp [hc]

/-- The executor's final `stripeSuccess` flag. -/
theorem transfer_stripe_flag (env : ProviderEnv) (o : Outcomes) (scan : ScanResult) :
    (transferToAllProviders env o scan).1.stripeSuccess
      = stripeSucceeds env o scan.total_amount := by
  unfold transferToAllProviders
  rw [bankStep_flagPreserve, mtStep_flag, paypalStep_flag, stripeStep_flag]
  simp [emptyResults]


/-- Shape of one provider block's effect on the audit trail: it appends
events, of which none is a consumption event, and it increments
`successful_transfers` by exactly the number of success events it
appends. -/
def BlockShape (f : TransferResults × List Event → TransferResults × List Event) : Prop :=
  ∀ acc, ∃ l, (f acc).2 = acc.2 ++ l
    ∧ (f acc).1.successful_transfers
        = acc.1.successful_transfers + l.countP (fun e => isSuccessEvent e)
    ∧ ∀ e ∈ l, isConsumeEvent e = false

theorem stripeStep_shape (env : ProviderEnv) (o : Outcomes) (tAmt : ℚ) (aCents : ℤ) :
    BlockShape (stripeStep env o tAmt aCents) := by
  intro acc
  unfold stripeStep
  by_cases hk : env.stripeKey
  · match h : o.stripeBalanceUsd with
    | .error _ =>
        exact ⟨[.stripePayoutFailed], by simp [hk], by simp [hk, isSuccessEvent],
          by simp [isConsumeEvent]⟩
    | .ok bal =>
        by_cases hb : tAmt ≤ bal
        · by_cases hm : (2 : ℚ)⁻¹ ≤ tAmt
          · match hp : o.stripePayout with
            | .ok _ =>
                exact ⟨[.stripeBalanceCheck, .stripePayoutSuccess],
                  by simp [hk, hb, hm], by simp [hk, hb, hm, isSuccessEvent],
                  by simp [isConsumeEvent]⟩
            | .error _ =>
                exact ⟨[.stripeBalanceCheck, .stripePayoutFailed],
                  by simp [hk, hb, hm], by simp [hk, hb, hm, isSuccessEvent],
                  by simp [isConsumeEvent]⟩
          · exact ⟨[.stripeBalanceCheck, .stripeInsufficientBalance],
              by simp [hk, hb, hm], by simp [hk, hb, hm, isSuccessEvent],
              by simp [isConsumeEvent]⟩
        · exact ⟨[.stripeBalanceCheck, .stripeInsufficientBalance],
            by simp [hk, hb], by simp [hk, hb, isSuccessEvent],
            by simp [isConsumeEvent]⟩
  · exact ⟨[.stripeNotConfigured], by simp [hk], by simp [hk, isSuccessEvent],
      by simp [isConsumeEvent]⟩

theorem paypalStep_shape (env : ProviderEnv) (o : Outcomes) (aCents : ℤ) :
    BlockShape (paypalStep env o aCents) := by
  intro acc
  unfold paypalStep
  by_cases hk : env.paypalCreds
  · match h : o.paypalToken with
    | .thrown _ =>
        exact ⟨[.paypalError], by simp [hk], by simp [hk, isSuccessEvent],
          by simp [isConsumeEvent]⟩
    | .bad =>
        exact ⟨[], by simp [hk], by simp [hk], by simp⟩
    | .ok =>
        match hp : o.paypalPayout with
        | .ok =>
            exact ⟨[.paypalPayoutSuccess], by simp [hk], by simp [hk, isSuccessEvent],
              by simp [isConsumeEvent]⟩
        | .bad =>
            exact ⟨[.paypalPayoutFailed], by simp [hk], by simp [hk, isSuccessEvent],
              by simp [isConsumeEvent]⟩
        | .thrown _ =>
            exact ⟨[.paypalError], by simp [hk], by simp [hk, isSuccessEvent],
              by simp [isConsumeEvent]⟩
  · exact ⟨[], by simp [hk], by simp [hk], by simp⟩

theorem mtStep_shape (env : ProviderEnv) (o : Outcomes) (tAmt : ℚ) (aCents : ℤ) :
    BlockShape (mtStep env o tAmt aCents) := by
  intro acc
  unfold mtStep
  by_cases hk : env.mtCreds
  · match h : o.mtOrder with
    | .ok =>
        exact ⟨[.mtSuccess], by simp [hk], by simp [hk, isSuccessEvent],
          by simp [isConsumeEvent]⟩
    | .bad =>
        exact ⟨[.mtFailed], by simp [hk], by simp [hk, isSuccessEvent],
          by simp [isConsumeEvent]⟩
    | .thrown _ =>
        exact ⟨[.mtError], by simp [hk], by simp [hk, isSuccessEvent],
          by simp [isConsumeEvent]⟩
  · exact ⟨[], by simp [hk], by simp [hk], by simp⟩

theorem bankStep_shape (env : ProviderEnv) (o : Outcomes) (tAmt : ℚ) (aCents : ℤ) :
    BlockShape (bankStep env o tAmt aCents) := by
  intro acc
  unfold bankStep
  by_cases hc : env.stripeKey ∧ env.bankAccountId ∧ acc.1.stripeSuccess = false
  · match h : o.bankTransfer with
    | .ok _ =>
        exact ⟨[.bankTransferSuccess], by simp [hc], by simp [hc, isSuccessEvent],
          by simp [isConsumeEvent]⟩
    | .error _ =>
        exact ⟨[.bankTransferFailed], by simp [hc], by simp [hc, isSuccessEvent],
          by simp [isConsumeEvent]⟩
  · exact ⟨[], by simp [hc], by simp [hc], by simp⟩

theorem blockShape_comp (f g : TransferResults × List Event → TransferResults × List Event)
    (hf : BlockShape f) (hg : BlockShape g) : BlockShape (fun acc => g (f acc)) := by
  intro acc
  rcases hf acc with ⟨l1, he1, hs1, hc1⟩
  rcases hg (f acc) with ⟨l2, he2, hs2, hc2⟩
  refine ⟨l1 ++ l2, ?_, ?_, ?_⟩
  · rw [he2, he1, List.append_assoc]
  · rw [hs2, hs1, List.countP_append]
    ring
  · intro e he
    rcases List.mem_append.1 he with he | he
    · exact hc1 e he
    · exact hc2 e he

/-- The whole executor appends only non-consumption events, exactly
`successful_transfers` of which are success events. -/
theorem transfer_events_shape (env : ProviderEnv) (o : Outcomes) (scan : ScanResult) :
    (transferToAllProviders env o scan).1.successful_transfers
        = (transferToAllProviders env o scan).2.countP (fun e => isSuccessEvent e)
      ∧ ∀ e ∈ (transferToAllProviders env o scan).2, isConsumeEvent e = false := by
  have hshape : BlockShape (fun acc =>
      bankStep env o scan.total_amount (round (scan.total_amount * 100))
        (mtStep env o scan.total_amount (round (scan.total_amount * 100))
          (paypalStep env o (round (scan.total_amount * 100))
            (stripeStep env o scan.total_amount (round (scan.total_amount * 100)) acc)))) := by
    exact blockShape_comp _ _
      (blockShape_comp _ _
        (blockShape_comp _ _
          (stripeStep_shape env o scan.total_amount (round (scan.total_amount * 100)))
          (paypalStep_shape env o (round (scan.total_amount * 100))))
        (mtStep_shape env o scan.total_amount (round (scan.total_amount * 100))))
      (bankStep_shape env o scan.total_amount (round (scan.total_amount * 100)))
  rcases hshape (emptyResults, []) with ⟨l, he, hs, hc⟩
  have hev : (transferToAllProviders env o scan).2 = l := by
    show (bankStep env o scan.total_amount (round (scan.total_amount * 100))
      (mtStep env o scan.total_amount (round (scan.total_amount * 100))
        (paypalStep env o (round (scan.total_amount * 100))
          (stripeStep env o scan.total_amount (round (scan.total_amount * 100))
            (emptyResults, []))))).2 = l
    rw [he]
    simp
  have hsucc : (transferToAllProviders env o scan).1.successful_transfers
      = emptyResults.successful_transfers + l.countP (fun e => isSuccessEvent e) := hs
  constructor
  · rw [hev, hsucc]
    simp [emptyResults]
  · intro e hemem
    rw [hev] at hemem
    exact hc e hemem

/-- Every submission the executor issues carries the full
`Math.round(total_amount * 100)` — no provider is ever asked for less. -/
theorem transfer_submissions_amount (env : ProviderEnv) (o : Outcomes)
    (scan : ScanResult) :
    ∀ s ∈ (transferToAllProviders env o scan).1.submissions,
      s.amountCents = round (scan.total_amount * 100) := by
  intro s hs
  rw [transfer_submissions_closed] at hs
  simp only [List.mem_append] at hs
  rcases hs with ((h | h) | h) | h <;>
    (split at h <;> simp_all)

/-- All events of a scan are `TABLE_SCANNED` events. -/
theorem scan_events_all_tableScanned (db : String → ReadResult) :
    ∀ e ∈ (scanAllTablesForUSD db).2, ∃ t, e = Event.tableScanned t := by
  rcases scanFold_events db USD_BALANCE_TABLES ⟨0, [], [], [], []⟩ with ⟨l, hl, hall⟩
  intro e he
  have : (scanAllTablesForUSD db).2 = l := by
    show (USD_BALANCE_TABLES.foldl (scanStep db) ⟨0, [], [], [], []⟩).events = l
    rw [hl]
    simp
  rw [this] at he
  exact hall e he

/-! ## Claim C1: records are consumed exactly when a transfer succeeded
and they were in the contributing set -/

/-- C1.  In every invocation of the aggregator, a record is consumed
(its zeroing update issued) iff at least one provider transfer of this
invocation succeeded and the record is in the scan's contributing set —
when consumption happens it covers exactly the contributing records; and
every amount submitted to a provider is the full
`Math.round(total_amount * 100)`, so a transfer of less than
`total_amount` never occurs (the code refuses partial transfers: each
attempt is for the whole total), making the Scenario-B hazard unreachable
in this flow. -/
theorem consumed_iff_transfer_succeeded (env : ProviderEnv) (o : Outcomes)
    (db : String → ReadResult) (auditSaveOk : Bool) :
    (∀ rec, rec ∈ (serveAggregator env o db auditSaveOk).consumed ↔
       (0 < (serveAggregator env o db auditSaveOk).results.successful_transfers
        ∧ rec ∈ contributing (scanAllTablesForUSD db).1))
    ∧ ∀ s ∈ (serveAggregator env o db auditSaveOk).results.submissions,
        s.amountCents = round ((scanAllTablesForUSD db).1.total_amount * 100) := by
  unfold serveAggregator
  by_cases h0 : (scanAllTablesForUSD db).1.total_amount ≤ 0
  · simp only [h0, if_true]
    constructor
    · intro rec
      simp [emptyResults]
    · intro s hs
      simp [emptyResults] at hs
  · simp only [h0, if_false]
    by_cases hsucc : 0 <
        (transferToAllProviders env o (scanAllTablesForUSD db).1).1.successful_transfers
    · rw [if_pos hsucc]
      constructor
      · intro rec
        constructor
        · intro hmem
          exact ⟨hsucc, hmem⟩
        · intro hmem
          exact hmem.2
      · intro s hs
        exact transfer_submissions_amount env o (scanAllTablesForUSD db).1 s hs
    · rw [if_neg hsucc]
      constructor
      · intro rec
        constructor
        · intro hmem
          simp at hmem
        · intro hmem
          exact absurd hmem.1 hsucc
      · intro s hs
        exact transfer_submissions_amount env o (scanAllTablesForUSD db).1 s hs

/-! ## Claim C2: consumption never precedes a succeeded transfer -/

/-- In a trail `pre ++ suffix` whose prefix holds no consumption event and
holds a success event whenever the suffix is nonempty, every consumption
event is preceded by a success event. -/
theorem consume_preceded_by_success (pre suffix : List Event)
    (hpre : ∀ e ∈ pre, isConsumeEvent e = false)
    (hsucc : suffix ≠ [] → ∃ d ∈ pre, isSuccessEvent d = true) :
    ∀ n e, (pre ++ suffix)[n]? = some e → isConsumeEvent e = true →
      ∃ (m : ℕ) (d : Event), m < n ∧ (pre ++ suffix)[m]? = some d ∧ isSuccessEvent d = true := by
  intro n e hn hc
  by_cases hlt : n < pre.length
  · exfalso
    have hpe : (pre ++ suffix)[n]? = pre[n]? := by
      rw [List.getElem?_append]
      simp [hlt]
    rw [hpe] at hn
    have := hpre e (List.getElem?_mem hn)
    rw [this] at hc
    exact Bool.false_ne_true hc
  · have hlen : n < (pre ++ suffix).length := (List.getElem?_eq_some_iff.1 hn).1
    have hsuf : suffix ≠ [] := by
      intro hemp
      rw [hemp, List.append_nil] at hlen
      exact hlt hlen
    rcases hsucc hsuf with ⟨d, hd, hsd⟩
    rcases List.mem_iff_getElem.1 hd with ⟨m, hm, hval⟩
    refine ⟨m, d, ?_, ?_, hsd⟩
    · exact lt_of_lt_of_le hm (le_of_not_lt hlt)
    · rw [List.getElem?_append]
      simp [hm, hval]

/-- C2.  In every invocation: if no provider transfer succeeded, zero
records are consumed; and in the invocation's audit trail, every
consumption event (`SOURCE_ZEROED`, `BALANCES_ZEROED`) is preceded by a
provider success event — consumption never precedes a confirmed succeeded
transfer. -/
theorem no_consumption_before_success (env : ProviderEnv) (o : Outcomes)
    (db : String → ReadResult) (auditSaveOk : Bool) :
    ((serveAggregator env o db auditSaveOk).results.successful_transfers = 0 →
      (serveAggregator env o db auditSaveOk).consumed = [])
    ∧ ∀ n e, (serveAggregator env o db auditSaveOk).events[n]? = some e →
        isConsumeEvent e = true →
        ∃ (m : ℕ) (d : Event), m < n
          ∧ (serveAggregator env o db auditSaveOk).events[m]? = some d
          ∧ isSuccessEvent d = true := by
  have hscan : ∀ e ∈ (scanAllTablesForUSD db).2, isConsumeEvent e = false := by
    intro e he
    rcases scan_events_all_tableScanned db e he with ⟨t, rfl⟩
    rfl
  have htr := transfer_events_shape env o (scanAllTablesForUSD db).1
  unfold serveAggregator
  by_cases h0 : (scanAllTablesForUSD db).1.total_amount ≤ 0
  · simp only [h0, if_true]
    constructor
    · intro _; trivial
    · have hpre : ∀ e ∈ ([Event.scanStarted] ++ (scanAllTablesForUSD db).2
          ++ [Event.scanCompleted] ++ [Event.noFunds]), isConsumeEvent e = false := by
        intro e he
        simp only [List.mem_append, List.mem_singleton] at he
        rcases he with ((he | he) | he) | he
        · subst he; rfl
        · exact hscan e he
        · subst he; rfl
        · subst he; rfl
      intro n e hn hc
      have hn' : (([Event.scanStarted] ++ (scanAllTablesForUSD db).2
          ++ [Event.scanCompleted] ++ [Event.noFunds]) ++ ([] : List Event))[n]?
            = some e := by
        rw [List.append_nil]
        simpa [List.append_assoc] using hn
      have := consume_preceded_by_success _ [] hpre (by intro h; exact absurd rfl h)
        n e hn' hc
      rcases this with ⟨m, d, hm, hmd, hsd⟩
      refine ⟨m, d, hm, ?_, hsd⟩
      rw [List.append_nil] at hmd
      simpa [List.append_assoc] using hmd
  · simp only [h0, if_false]
    by_cases hsucc : 0 <
        (transferToAllProviders env o (scanAllTablesForUSD db).1).1.successful_transfers
    · rw [if_pos hsucc]
      constructor
      · intro hz
        exact absurd hsucc (by rw [hz] ; exact lt_irrefl 0)
      · -- events = pre ++ suffix with the zeroing events in the suffix
        have hpre : ∀ e ∈ ([Event.scanStarted] ++ (scanAllTablesForUSD db).2
            ++ [Event.scanCompleted]
            ++ (transferToAllProviders env o (scanAllTablesForUSD db).1).2
            ++ [Event.transfersCompleted]), isConsumeEvent e = false := by
          intro e he
          simp only [List.mem_append, List.mem_singleton] at he
          rcases he with (((he | he) | he) | he) | he
          · subst he; rfl
          · exact hscan e he
          · subst he; rfl
          · exact htr.2 e he
          · subst he; rfl
        have hs : ∃ d ∈ ([Event.scanStarted] ++ (scanAllTablesForUSD db).2
            ++ [Event.scanCompleted]
            ++ (transferToAllProviders env o (scanAllTablesForUSD db).1).2
            ++ [Event.transfersCompleted]), isSuccessEvent d = true := by
          have hcount : 0 < ((transferToAllProviders env o
              (scanAllTablesForUSD db).1).2).countP (fun e => isSuccessEvent e) := by
            rw [← htr.1]; exact hsucc
          rcases List.countP_pos_iff.1 hcount with ⟨d, hd, hsd⟩
          exact ⟨d, by simp [hd], hsd⟩
        intro n e hn hc
        have hassoc : (([Event.scanStarted] ++ (scanAllTablesForUSD db).2
            ++ [Event.scanCompleted]
            ++ (transferToAllProviders env o (scanAllTablesForUSD db).1).2
            ++ [Event.transfersCompleted])
            ++ ((zeroOutAllSourceBalances (scanAllTablesForUSD db).1.sources).2
                ++ [Event.balancesZeroed]))[n]? = some e := by
          simpa [List.append_assoc] using hn
        have := consume_preceded_by_success _ _ hpre (fun _ => hs) n e hassoc hc
        rcases this with ⟨m, d, hm, hmd, hsd⟩
        refine ⟨m, d, hm, ?_, hsd⟩
        simpa [List.append_assoc] using hmd
    · rw [if_neg hsucc]
      constructor
      · intro _; trivial
      · have hpre : ∀ e ∈ ([Event.scanStarted] ++ (scanAllTablesForUSD db).2
            ++ [Event.scanCompleted]
            ++ (transferToAllProviders env o (scanAllTablesForUSD db).1).2
            ++ [Event.transfersCompleted]), isConsumeEvent e = false := by
          intro e he
          simp only [List.mem_append, List.mem_singleton] at he
          rcases he with (((he | he) | he) | he) | he
          · subst he; rfl
          · exact hscan e he
          · subst he; rfl
          · exact htr.2 e he
          · subst he; rfl
        intro n e hn hc
        have hn' : (([Event.scanStarted] ++ (scanAllTablesForUSD db).2
            ++ [Event.scanCompleted]
            ++ (transferToAllProviders env o (scanAllTablesForUSD db).1).2
            ++ [Event.transfersCompleted]) ++ ([] : List Event))[n]? = some e := by
          rw [List.append_nil]
          simpa [List.append_assoc] using hn
        have := consume_preceded_by_success _ [] hpre
          (by intro h; exact absurd rfl h) n e hn' hc
        rcases this with ⟨m, d, hm, hmd, hsd⟩
        refine ⟨m, d, hm, ?_, hsd⟩
        rw [List.append_nil] at hmd
        simpa [List.append_assoc] using hmd

/-! ## Claim C10: a positive scan total yields success:true / 200 -/

/-- C10.  Whenever the scan finds a positive total (and the handler runs to
its normal return), the aggregator's response is `success: true` with HTTP
status 200 — this holds for every combination of provider outcomes and
audit-log persistence outcome, in particular when zero provider transfers
succeeded, nothing was zeroed, and `saveAuditLog` failed (it swallows its
own errors). -/
theorem response_success_whenever_funds_found (env : ProviderEnv) (o : Outcomes)
    (db : String → ReadResult) (auditSaveOk : Bool)
    (hpos : 0 < (scanAllTablesForUSD db).1.total_amount) :
    (serveAggregator env o db auditSaveOk).response.success = true
    ∧ (serveAggregator env o db auditSaveOk).response.status = 200 := by
  have h0 : ¬ (scanAllTablesForUSD db).1.total_amount ≤ 0 := not_le.2 hpos
  unfold serveAggregator
  simp only [h0, if_false]
  by_cases hsucc : 0 <
      (transferToAllProviders env o (scanAllTablesForUSD db).1).1.successful_transfers
  · rw [if_pos hsucc]
    exact ⟨rfl, rfl⟩
  · rw [if_neg hsucc]
    exact ⟨rfl, rfl⟩

/-- A datastore with a single positive balance: one `earnings` row of 75
dollars; every other table reads as null data. -/
def dbOne : String → ReadResult :=
  fun t => if t = "earnings" then .ok (some [⟨1, some 75⟩]) else .ok none

/-- An environment with no provider configured. -/
def envNone : ProviderEnv := ⟨false, false, false, false⟩

/-- An environment with every provider configured. -/
def envAll : ProviderEnv := ⟨true, true, true, true⟩

/-- Outcomes where every external call fails or is rejected. -/
def oDown : Outcomes := ⟨.error "down", .error "down", .bad, .bad, .bad, .error "down"⟩

/-- Outcomes where every external call succeeds, with a 100-dollar Stripe
balance. -/
def oAllOk : Outcomes := ⟨.ok 100, .ok "po_1", .ok, .ok, .ok, .ok "tr_1"⟩

theorem response_success_whenever_funds_found_witness :
    (serveAggregator envNone oDown dbOne false).response.success = true
    ∧ (serveAggregator envNone oDown dbOne false).response.status = 200
    ∧ (serveAggregator envNone oDown dbOne false).results.successful_transfers = 0
    ∧ (serveAggregator envNone oDown dbOne false).consumed = []
    ∧ (serveAggregator envNone oDown dbOne false).auditSaved = false :=
  ⟨(response_success_whenever_funds_found envNone oDown dbOne false (by
      simp [scanAllTablesForUSD, USD_BALANCE_TABLES, scanStep, dbOne,
        tableTotal, recAmount])).1,
   (response_success_whenever_funds_found envNone oDown dbOne false (by
      simp [scanAllTablesForUSD, USD_BALANCE_TABLES, scanStep, dbOne,
        tableTotal, recAmount])).2,
   by simp [serveAggregator, scanAllTablesForUSD, USD_BALANCE_TABLES, scanStep,
        dbOne, tableTotal, recAmount, transferToAllProviders, stripeStep,
        paypalStep, mtStep, bankStep, envNone, oDown, emptyResults]; split <;> rfl,
   by simp [serveAggregator, scanAllTablesForUSD, USD_BALANCE_TABLES, scanStep,
        dbOne, tableTotal, recAmount, transferToAllProviders, stripeStep,
        paypalStep, mtStep, bankStep, envNone, oDown, emptyResults]; split <;> rfl,
   by simp [serveAggregator, scanAllTablesForUSD, USD_BALANCE_TABLES, scanStep,
        dbOne, tableTotal, recAmount, transferToAllProviders, stripeStep,
        paypalStep, mtStep, bankStep, envNone, oDown, emptyResults]; split <;> rfl⟩

/-! ## Claim C4: provider fan-out -/

/-- C4 (amended).  The executor does not stop at the first success: every
configured provider is attempted independently of earlier outcomes — the
Modern Treasury order is submitted iff its credentials are configured, the
PayPal batch iff its credentials are configured and the token fetch
succeeded, and only the direct bank fallback is conditioned on the Stripe
payout not having succeeded.  Every submission carries the same full
`Math.round(total_amount * 100)`: the amount is never split, and a failed
provider is followed by the next one with the same amount. -/
theorem every_configured_provider_attempted (env : ProviderEnv) (o : Outcomes)
    (db : String → ReadResult) :
    (∀ s ∈ (transferToAllProviders env o (scanAllTablesForUSD db).1).1.submissions,
        s.amountCents = round ((scanAllTablesForUSD db).1.total_amount * 100))
    ∧ ((∃ s ∈ (transferToAllProviders env o (scanAllTablesForUSD db).1).1.submissions,
          s.provider = "modern_treasury") ↔ env.mtCreds = true)
    ∧ ((∃ s ∈ (transferToAllProviders env o (scanAllTablesForUSD db).1).1.submissions,
          s.provider = "paypal") ↔ paypalSubmits env o = true)
    ∧ ((∃ s ∈ (transferToAllProviders env o (scanAllTablesForUSD db).1).1.submissions,
          s.provider = "bank_direct")
        ↔ bankSubmits env o (scanAllTablesForUSD db).1.total_amount = true)
    ∧ (transferToAllProviders env o (scanAllTablesForUSD db).1).1.stripeSuccess
        = stripeSucceeds env o (scanAllTablesForUSD db).1.total_amount := by
  refine ⟨transfer_submissions_amount env o (scanAllTablesForUSD db).1, ?_, ?_, ?_,
    transfer_stripe_flag env o (scanAllTablesForUSD db).1⟩ <;>
  · rw [transfer_submissions_closed]
    by_cases hst : stripeSubmits env o (scanAllTablesForUSD db).1.total_amount <;>
    by_cases hpp : paypalSubmits env o <;>
    by_cases hmt : env.mtCreds <;>
    by_cases hbk : bankSubmits env o (scanAllTablesForUSD db).1.total_amount <;>
    simp [hst, hpp, hmt, hbk]

/-- C4 counterexample.  With every provider configured and every external
call accepted, over a datastore holding a single 75-dollar record: the
Stripe payout (the first processor) succeeds, yet the executor still
submits to PayPal and Modern Treasury — three submissions, three recorded
successes — refuting "the payout executor stops after the first processor
whose submission succeeds". -/
theorem first_success_does_not_stop_executor :
    (transferToAllProviders envAll oAllOk (scanAllTablesForUSD dbOne).1).1.stripeSuccess
        = true
    ∧ ((transferToAllProviders envAll oAllOk (scanAllTablesForUSD dbOne).1).1.submissions.map
          (fun s => s.provider)) = ["stripe", "paypal", "modern_treasury"]
    ∧ (transferToAllProviders envAll oAllOk
        (scanAllTablesForUSD dbOne).1).1.successful_transfers = 3 := by
  have hscan : (scanAllTablesForUSD dbOne).1.total_amount = 75 := by
    simp [scanAllTablesForUSD, USD_BALANCE_TABLES, scanStep, dbOne, tableTotal, recAmount]
  refine ⟨?_, ?_, ?_⟩ <;>
  · unfold transferToAllProviders
    rw [hscan]
    norm_num [stripeStep, paypalStep, mtStep, bankStep, envAll, oAllOk, emptyResults]

/-! ## The aggregate-usd-to-stripe flow (resolver, transfer row, retry loop) -/

/-- A row of `autonomous_revenue_transactions`: amount, currency and
status (the code defaults a missing currency to USD). -/
structure ArtRow where
  amount : Option ℚ
  currency : Option String
  status : String
deriving Repr, DecidableEq

/-- A row of `consolidated_balances`: amount and currency. -/
structure CbRow where
  amount : Option ℚ
  currency : Option String
deriving Repr, DecidableEq

/-- The five datastore reads of the aggregate flow (already error-free:
an erroring read throws before any amount is computed). -/
structure AggDb where
  appBalance : Option ℚ
  art : List ArtRow
  cb : List CbRow
  ca : List (Option ℚ)
  earn : List (Option ℚ)
deriving Repr, DecidableEq

/-- `Number(appBalRes.data?.balance_amount || 0)`. -/
def appBalanceUSD (d : AggDb) : ℚ := d.appBalance.getD 0

/-- Rows with currency USD (defaulted) and status `success`, summed. -/
def artUSD (d : AggDb) : ℚ :=
  ((d.art.filter (fun r =>
      (r.currency.getD "USD").toUpper = "USD" && r.status = "success")).map
    (fun r => r.amount.getD 0)).sum

/-- Rows with currency USD (defaulted), summed. -/
def consBalUSD (d : AggDb) : ℚ :=
  ((d.cb.filter (fun r => (r.currency.getD "USD").toUpper = "USD")).map
    (fun r => r.amount.getD 0)).sum

/-- `consolidated_amounts.total_usd`, summed. -/
def consAmountsUSD (d : AggDb) : ℚ := (d.ca.map (fun v => v.getD 0)).sum

/-- `earnings.amount`, summed. -/
def earningsUSD (d : AggDb) : ℚ := (d.earn.map (fun v => v.getD 0)).sum

/-- `aggregateUSD = appBalance + artUSD + consBalUSD + consAmountsUSD +
earningsUSD`. -/
def aggregateUSD (d : AggDb) : ℚ :=
  appBalanceUSD d + artUSD d + consBalUSD d + consAmountsUSD d + earningsUSD d

/-- `aggregateCents = Math.max(0, Math.round(aggregateUSD * 100))`. -/
def aggregateCents (d : AggDb) : ℤ := max 0 (round (aggregateUSD d * 100))

/-- `amountToTransferCents = Math.min(aggregateCents, availableUSD)` —
the transfer amount bounded by Stripe's actually available USD cents. -/
def amountToTransferCents (d : AggDb) (availableUSD : ℤ) : ℤ :=
  min (aggregateCents d) availableUSD

/-- Retry classification: `rate_limit`, `lock_timeout`,
`temporary_unavailable` codes and `api_connection_error` / `api_error`
types are retryable. -/
def retryableErr (code etype : String) : Bool :=
  ["rate_limit", "lock_timeout", "temporary_unavailable"].contains code
    || ["api_connection_error", "api_error"].contains etype

/-- Terminal classification: these codes abort the retry loop at once. -/
def nonRetryableErr (code : String) : Bool :=
  ["insufficient_funds", "account_invalid", "authentication_error",
   "invalid_request_error", "account_deactivated", "transfers_not_allowed"].contains code

def MAX_RETRIES : Nat := 3

def INITIAL_DELAY : Nat := 1000

/-- `getDelay = (attempt) => INITIAL_DELAY * Math.pow(2, attempt)`. -/
def getDelay (attempt : Nat) : Nat := INITIAL_DELAY * 2 ^ attempt

/-- Outcome of one `stripe.transfers.create` call. -/
inductive TransferOutcome where
  | ok (id : String)
  | failed (code : String) (etype : String)
deriving Repr, DecidableEq

/-- The ordered side effects of one invocation of the aggregate flow. -/
inductive AggStep where
  | balanceRetrieve
  | dbReads
  | insertTransferRow (status : String) (hasIdemKey : Bool)
  | stripeSubmit (amountCents : ℤ) (idemKey : Option String)
  | sleepStep (ms : Nat)
  | updateTransferRow (status : String)
  | insertLog (status : String)
deriving Repr, DecidableEq

/-- The retry loop of the aggregate flow, from a given attempt number with
the remaining loop iterations as fuel (`MAX_RETRIES + 1` at the top call):
each iteration issues one `stripe.transfers.create` with no idempotency
key; on success it stops; on an error it stops if the error is
non-retryable, the attempt bound is reached, or the error is not
retryable, and otherwise sleeps `getDelay(attempt)` and retries. -/
def retryGo (o : Nat → TransferOutcome) (amt : ℤ) : Nat → Nat → List AggStep × Bool
  | 0, _ => ([], false)
  | fuel + 1, attempt =>
      match o attempt with
      | .ok _ => ([.stripeSubmit amt none], true)
      | .failed c t =>
          if nonRetryableErr c || decide (attempt = MAX_RETRIES) || !retryableErr c t then
            ([.stripeSubmit amt none], false)
          else
            let rest := retryGo o amt fuel (attempt + 1)
            (.stripeSubmit amt none :: .sleepStep (getDelay attempt) :: rest.1, rest.2)

/-- The full retry loop (`for attempt = 0; attempt <= MAX_RETRIES`). -/
def runRetry (o : Nat → TransferOutcome) (amt : ℤ) : List AggStep × Bool :=
  retryGo o amt (MAX_RETRIES + 1) 0

/-- The `autonomous_revenue_transfers` row the flow inserts before
submitting: the code sets `status: 'processing'` and stores the execution
id inside `metadata`; no idempotency-key field exists anywhere in the
insert. -/
structure TransferRow where
  amountCents : ℤ
  rowStatus : String
  hasIdempotencyKey : Bool
  executionId : String
deriving Repr, DecidableEq

/-- What one invocation of the aggregate flow did. -/
structure AggFlowResult where
  steps : List AggStep
  insertedRow : Option TransferRow
  succeeded : Bool
deriving Repr, DecidableEq

/-- One invocation of the aggregate flow: retrieve the Stripe balance
(first network call), read the five tables, resolve the transfer amount;
if it is not positive, log `skipped`; on a dry run, stop; otherwise insert
the `processing` transfer row, run the retry loop, and close with the
`completed` (update then log) or `failed` (log then update) writes. -/
def aggregateFlow (execId : String) (dryRun : Bool) (d : AggDb)
    (availableUSD : ℤ) (o : Nat → TransferOutcome) : AggFlowResult :=
  let amt := amountToTransferCents d availableUSD
  if amt ≤ 0 then
    { steps := [.balanceRetrieve, .dbReads, .insertLog "skipped"],
      insertedRow := none, succeeded := false }
  else if dryRun then
    { steps := [.balanceRetrieve, .dbReads], insertedRow := none, succeeded := true }
  else
    let r := runRetry o amt
    if r.2 then
      { steps := [.balanceRetrieve, .dbReads, .insertTransferRow "processing" false]
          ++ r.1 ++ [.updateTransferRow "completed", .insertLog "completed"],
        insertedRow := some ⟨amt, "processing", false, execId⟩, succeeded := true }
    else
      { steps := [.balanceRetrieve, .dbReads, .insertTransferRow "processing" false]
          ++ r.1 ++ [.insertLog "failed", .updateTransferRow "failed"],
        insertedRow := some ⟨amt, "processing", false, execId⟩, succeeded := false }

/-- The external `transfers.create` submissions an invocation issued:
their amounts and idempotency keys. -/
def flowSubmissions (r : AggFlowResult) : List (ℤ × Option String) :=
  r.steps.filterMap (fun s =>
    match s with
    | .stripeSubmit a k => some (a, k)
    | _ => none)

def isSubmitStep : AggStep → Bool
  | .stripeSubmit _ _ => true
  | _ => false

theorem retryGo_submit_count (o : Nat → TransferOutcome) (amt : ℤ) :
    ∀ (fuel attempt : Nat),
      ((retryGo o amt fuel attempt).1.countP fun s => isSubmitStep s) ≤ fuel := by
  intro fuel
  induction fuel with
  | zero => intro attempt; simp [retryGo]
  | succ fuel ih =>
      intro attempt
      unfold retryGo
      match h : o attempt with
      | .ok _ => simp [isSubmitStep]
      | .failed c t =>
          by_cases hstop : nonRetryableErr c || decide (attempt = MAX_RETRIES)
              || !retryableErr c t
          · simp [hstop, isSubmitStep]
          · simp only [hstop, if_false, Bool.false_eq_true, List.countP_cons, isSubmitStep]
            have := ih (attempt + 1)
            simp [isSubmitStep] at this ⊢
            omega

/-! ## Claim C7: bounded exponential backoff with error classification -/

/-- C7.  The aggregate flow's single configured processor (Stripe) is
retried under bounded exponential backoff: the delay before retry
`attempt + 1` is `INITIAL_DELAY * 2 ^ attempt` = `1000 * 2 ^ attempt` ms;
at most `MAX_RETRIES + 1 = 4` submissions are made; rate limiting and
transient API/connection errors are classified retryable and lead to a
sleep of exactly `1000 * 2 ^ attempt` followed by the next attempt, while
insufficient funds, an invalid destination account and authentication
failures are terminal and abort the loop immediately after the failing
submission, with no sleep and no further attempt. -/
theorem retry_policy_bounded_exponential_backoff :
    (∀ a, getDelay a = 1000 * 2 ^ a)
    ∧ retryableErr "rate_limit" "" = true
    ∧ retryableErr "" "api_connection_error" = true
    ∧ retryableErr "" "api_error" = true
    ∧ nonRetryableErr "insufficient_funds" = true
    ∧ nonRetryableErr "account_invalid" = true
    ∧ nonRetryableErr "authentication_error" = true
    ∧ (∀ (o : Nat → TransferOutcome) (amt : ℤ),
        ((runRetry o amt).1.countP fun s => isSubmitStep s) ≤ 4)
    ∧ (∀ (o : Nat → TransferOutcome) (amt : ℤ) (fuel attempt : Nat) (c t : String),
        o attempt = .failed c t → nonRetryableErr c = true →
          retryGo o amt (fuel + 1) attempt = ([.stripeSubmit amt none], false))
    ∧ (∀ (o : Nat → TransferOutcome) (amt : ℤ) (fuel attempt : Nat) (c t : String),
        o attempt = .failed c t → retryableErr c t = true →
          nonRetryableErr c = false → attempt ≠ MAX_RETRIES →
          retryGo o amt (fuel + 1) attempt
            = (AggStep.stripeSubmit amt none :: AggStep.sleepStep (1000 * 2 ^ attempt)
                :: (retryGo o amt fuel (attempt + 1)).1,
               (retryGo o amt fuel (attempt + 1)).2)) := by
  refine ⟨fun a => rfl, rfl, rfl, rfl, rfl, rfl, rfl, ?_, ?_, ?_⟩
  · intro o amt
    exact retryGo_submit_count o amt (MAX_RETRIES + 1) 0
  · intro o amt fuel attempt c t ho hterm
    unfold retryGo
    rw [ho]
    simp [hterm]
  · intro o amt fuel attempt c t ho hretry hterm hat
    conv_lhs => unfold retryGo
    rw [ho]
    simp [hterm, hat, hretry, getDelay, INITIAL_DELAY]

/-- Every step of the retry loop is either the Stripe submission of the
resolved amount (with no idempotency key) or a sleep. -/
theorem retryGo_steps_shape (o : Nat → TransferOutcome) (amt : ℤ) :
    ∀ (fuel attempt : Nat), ∀ s ∈ (retryGo o amt fuel attempt).1,
      s = AggStep.stripeSubmit amt none ∨ ∃ ms, s = AggStep.sleepStep ms := by
  intro fuel
  induction fuel with
  | zero => intro attempt s hs; simp [retryGo] at hs
  | succ fuel ih =>
      intro attempt s hs
      unfold retryGo at hs
      match h : o attempt with
      | .ok _ =>
          rw [h] at hs
          exact Or.inl (by simpa using hs)
      | .failed c t =>
          rw [h] at hs
          by_cases hstop : nonRetryableErr c || decide (attempt = MAX_RETRIES)
              || !retryableErr c t
          · have hs' : s ∈ [AggStep.stripeSubmit amt none] := by
              simpa [hstop] using hs
            exact Or.inl (by simpa using hs')
          · have hs' : s ∈ AggStep.stripeSubmit amt none
                :: AggStep.sleepStep (getDelay attempt)
                :: (retryGo o amt fuel (attempt + 1)).1 := by
              simpa [hstop] using hs
            simp only [List.mem_cons] at hs'
            rcases hs' with rfl | hs'
            · exact Or.inl rfl
            · rcases hs' with rfl | hs'
              · exact Or.inr ⟨getDelay attempt, rfl⟩
              · exact ih (attempt + 1) s hs'

/-- Every external submission of the aggregate flow carries exactly the
resolved `amountToTransferCents` and no idempotency key, and submissions
happen only when that amount is positive. -/
theorem aggregateFlow_submissions (execId : String) (dryRun : Bool) (d : AggDb)
    (availableUSD : ℤ) (o : Nat → TransferOutcome) :
    ∀ p ∈ flowSubmissions (aggregateFlow execId dryRun d availableUSD o),
      p.1 = amountToTransferCents d availableUSD
      ∧ p.2 = none
      ∧ 0 < amountToTransferCents d availableUSD := by
  intro p hp
  unfold aggregateFlow at hp
  by_cases h0 : amountToTransferCents d availableUSD ≤ 0
  · rw [if_pos h0] at hp
    simp [flowSubmissions] at hp
  · rw [if_neg h0] at hp
    by_cases hdry : dryRun
    · rw [if_pos hdry] at hp
      simp [flowSubmissions] at hp
    · rw [if_neg hdry] at hp
      have hsteps : ∀ l1 l2 : List AggStep,
          (∀ s ∈ l1, ¬ isSubmitStep s = true) → (∀ s ∈ l2, ¬ isSubmitStep s = true) →
          p ∈ flowSubmissions ⟨l1 ++ (runRetry o (amountToTransferCents d availableUSD)).1
              ++ l2, some ⟨amountToTransferCents d availableUSD, "processing", false, execId⟩,
              (runRetry o (amountToTransferCents d availableUSD)).2⟩ →
          p.1 = amountToTransferCents d availableUSD ∧ p.2 = none := by
        intro l1 l2 h1 h2 hmem
        simp only [flowSubmissions, List.filterMap_append, List.mem_append] at hmem
        rcases hmem with (hmem | hmem) | hmem
        · exfalso
          rcases List.mem_filterMap.1 hmem with ⟨s, hs, hval⟩
          match s with
          | .stripeSubmit a k => exact h1 _ hs rfl
          | .balanceRetrieve => simp at hval
          | .dbReads => simp at hval
          | .insertTransferRow st hk => simp at hval
          | .sleepStep ms => simp at hval
          | .updateTransferRow st => simp at hval
          | .insertLog st => simp at hval
        · rcases List.mem_filterMap.1 hmem with ⟨s, hs, hval⟩
          rcases retryGo_steps_shape o (amountToTransferCents d availableUSD)
              (MAX_RETRIES + 1) 0 s hs with rfl | ⟨ms, rfl⟩
          · simp at hval
            rw [← hval]
            exact ⟨rfl, rfl⟩
          · simp at hval
        · exfalso
          rcases List.mem_filterMap.1 hmem with ⟨s, hs, hval⟩
          match s with
          | .stripeSubmit a k => exact h2 _ hs rfl
          | .balanceRetrieve => simp at hval
          | .dbReads => simp at hval
          | .insertTransferRow st hk => simp at hval
          | .sleepStep ms => simp at hval
          | .updateTransferRow st => simp at hval
          | .insertLog st => simp at hval
      by_cases hr : (runRetry o (amountToTransferCents d availableUSD)).2
      · rw [if_pos hr] at hp
        have := hsteps [.balanceRetrieve, .dbReads, .insertTransferRow "processing" false]
          [.updateTransferRow "completed", .insertLog "completed"]
          (by intro s hs; simp at hs; rcases hs with rfl | rfl | rfl <;> simp [isSubmitStep])
          (by intro s hs; simp at hs; rcases hs with rfl | rfl <;> simp [isSubmitStep])
          (by simpa [hr] using hp)
        exact ⟨this.1, this.2, lt_of_not_le h0⟩
      · rw [if_neg hr] at hp
        have := hsteps [.balanceRetrieve, .dbReads, .insertTransferRow "processing" false]
          [.insertLog "failed", .updateTransferRow "failed"]
          (by intro s hs; simp at hs; rcases hs with rfl | rfl | rfl <;> simp [isSubmitStep])
          (by intro s hs; simp at hs; rcases hs with rfl | rfl <;> simp [isSubmitStep])
          (by simpa [hr] using hp)
        exact ⟨this.1, this.2, lt_of_not_le h0⟩

/-- A Stripe payout submission occurs iff the key is configured, the
balance retrieval returned, and the balance and minimum checks passed. -/
theorem stripe_submission_iff (env : ProviderEnv) (o : Outcomes) (scan : ScanResult) :
    (∃ s ∈ (transferToAllProviders env o scan).1.submissions, s.provider = "stripe")
      ↔ stripeSubmits env o scan.total_amount = true := by
  rw [transfer_submissions_closed]
  by_cases hst : stripeSubmits env o scan.total_amount <;>
  by_cases hpp : paypalSubmits env o <;>
  by_cases hmt : env.mtCreds <;>
  by_cases hbk : bankSubmits env o scan.total_amount <;>
  simp [hst, hpp, hmt, hbk]

/-! ## Claim C3: the resolver bound on the submitted amount -/

/-- C3 (amended).  In the aggregate-usd-to-stripe flow the claim holds:
the resolved amount is `min(max(0, round(aggregate·100)), available)`, so
it is at most the aggregate, at most the available balance and, whenever a
submission actually happens, positive and equal to
`max(0, min(aggregate_cents, available))`; every submission of that flow
carries exactly this amount.  The comprehensive aggregator, however,
always submits the full `round(total_amount · 100)`: only its Stripe
payout path is bounded by the available balance (a Stripe submission
implies `total_amount ≤ stripe_balance`), while PayPal / Modern Treasury /
direct-bank submissions carry the full total regardless of any available
balance. -/
theorem transfer_amount_resolver_bounds :
    (∀ (d : AggDb) (avail : ℤ),
        amountToTransferCents d avail ≤ avail
        ∧ amountToTransferCents d avail ≤ aggregateCents d
        ∧ (0 < amountToTransferCents d avail →
            amountToTransferCents d avail = max 0 (min (aggregateCents d) avail)))
    ∧ (∀ (execId : String) (dryRun : Bool) (d : AggDb) (avail : ℤ)
          (o : Nat → TransferOutcome),
        ∀ p ∈ flowSubmissions (aggregateFlow execId dryRun d avail o),
          p.1 = amountToTransferCents d avail ∧ 0 < p.1)
    ∧ (∀ (env : ProviderEnv) (o : Outcomes) (db : String → ReadResult),
        ∀ s ∈ (transferToAllProviders env o (scanAllTablesForUSD db).1).1.submissions,
          s.amountCents = round ((scanAllTablesForUSD db).1.total_amount * 100))
    ∧ (∀ (env : ProviderEnv) (o : Outcomes) (db : String → ReadResult) (bal : ℚ),
        o.stripeBalanceUsd = Except.ok bal →
        (∃ s ∈ (transferToAllProviders env o (scanAllTablesForUSD db).1).1.submissions,
          s.provider = "stripe") →
        (scanAllTablesForUSD db).1.total_amount ≤ bal) := by
  refine ⟨?_, ?_, ?_, ?_⟩
  · intro d avail
    refine ⟨min_le_right _ _, min_le_left _ _, ?_⟩
    intro hpos
    exact (max_eq_right (le_of_lt hpos)).symm
  · intro execId dryRun d avail o p hp
    have := aggregateFlow_submissions execId dryRun d avail o p hp
    exact ⟨this.1, by rw [this.1]; exact this.2.2⟩
  · intro env o db
    exact transfer_submissions_amount env o (scanAllTablesForUSD db).1
  · intro env o db bal hbal hsub
    have hst := (stripe_submission_iff env o (scanAllTablesForUSD db).1).1 hsub
    unfold stripeSubmits at hst
    rw [hbal] at hst
    rcases Bool.and_eq_true_iff.1 hst with ⟨_, hcond⟩
    rcases Bool.and_eq_true_iff.1 hcond with ⟨hle, _⟩
    exact of_decide_eq_true hle

/-- An environment with the Stripe key and a bank account, but no PayPal
or Modern Treasury credentials. -/
def envBank : ProviderEnv := ⟨true, false, false, true⟩

/-- Outcomes with a Stripe balance of $0.10 (10 cents available) and an
accepted bank transfer. -/
def oLowBal : Outcomes := ⟨.ok (1/10), .error "insufficient", .bad, .bad, .bad, .ok "tr_1"⟩

/-- C3 counterexample.  Over a datastore totalling $75 with only $0.10
available at Stripe, the aggregator's direct-bank path submits the full
7500 cents — not `max(0, min(7500, 10)) = 10` — so the amount submitted to
a processor is not `max(0, min(requested_or_total, available_balance))`. -/
theorem transfer_amount_exceeds_available_cex :
    oLowBal.stripeBalanceUsd = Except.ok (1/10)
    ∧ (scanAllTablesForUSD dbOne).1.total_amount = 75
    ∧ (transferToAllProviders envBank oLowBal (scanAllTablesForUSD dbOne).1).1.submissions
        = [Submission.mk "bank_direct" 7500]
    ∧ ¬ (7500 : ℤ) = max 0 (min 7500 10) := by
  have hscan : (scanAllTablesForUSD dbOne).1.total_amount = 75 := by
    simp [scanAllTablesForUSD, USD_BALANCE_TABLES, scanStep, dbOne, tableTotal, recAmount]
  refine ⟨rfl, hscan, ?_, by decide⟩
  rw [transfer_submissions_closed, hscan]
  norm_num [stripeSubmits, paypalSubmits, bankSubmits, stripeSucceeds, envBank,
    oLowBal, round_eq]

/-! ## Claim C5: transfer-row persistence and (absent) idempotency -/

/-- C5 (amended).  Before the payout submission — but after the
balance-retrieval network call — the aggregate flow inserts an
`autonomous_revenue_transfers` row with status `processing` (not
`pending`), carrying the execution id in its metadata and no
idempotency-key field; the Stripe submission itself carries no idempotency
key; and a resubmission of the flow performs a fresh external submission
(nothing detects a previous run), so each call that reaches the submission
step creates its own external payout. -/
theorem transfer_row_inserted_before_submission (execId : String) (dryRun : Bool)
    (d : AggDb) (avail : ℤ) (o : Nat → TransferOutcome) :
    (∀ row, (aggregateFlow execId dryRun d avail o).insertedRow = some row →
        row.rowStatus = "processing" ∧ row.hasIdempotencyKey = false
        ∧ row.executionId = execId ∧ row.amountCents = amountToTransferCents d avail)
    ∧ (0 < amountToTransferCents d avail → dryRun = false →
        ∃ rest, (aggregateFlow execId dryRun d avail o).steps
          = [AggStep.balanceRetrieve, AggStep.dbReads,
             AggStep.insertTransferRow "processing" false] ++ rest)
    ∧ (∀ p ∈ flowSubmissions (aggregateFlow execId dryRun d avail o), p.2 = none)
    ∧ (0 < amountToTransferCents d avail → dryRun = false →
        (∃ id0, o 0 = TransferOutcome.ok id0) →
        flowSubmissions (aggregateFlow execId dryRun d avail o)
          = [(amountToTransferCents d avail, none)]) := by
  refine ⟨?_, ?_, ?_, ?_⟩
  · intro row hrow
    unfold aggregateFlow at hrow
    by_cases h0 : amountToTransferCents d avail ≤ 0
    · rw [if_pos h0] at hrow
      simp at hrow
    · rw [if_neg h0] at hrow
      by_cases hdry : dryRun
      · rw [if_pos hdry] at hrow
        simp at hrow
      · rw [if_neg hdry] at hrow
        by_cases hr : (runRetry o (amountToTransferCents d avail)).2
        · rw [if_pos hr] at hrow
          simp at hrow
          rw [← hrow]
          exact ⟨rfl, rfl, rfl, rfl⟩
        · rw [if_neg hr] at hrow
          simp at hrow
          rw [← hrow]
          exact ⟨rfl, rfl, rfl, rfl⟩
  · intro hpos hdry
    unfold aggregateFlow
    rw [if_neg (not_le.2 hpos), hdry]
    simp only [Bool.false_eq_true, if_false]
    by_cases hr : (runRetry o (amountToTransferCents d avail)).2
    · rw [if_pos hr]
      exact ⟨(runRetry o (amountToTransferCents d avail)).1
        ++ [.updateTransferRow "completed", .insertLog "completed"], by simp⟩
    · rw [if_neg hr]
      exact ⟨(runRetry o (amountToTransferCents d avail)).1
        ++ [.insertLog "failed", .updateTransferRow "failed"], by simp⟩
  · intro p hp
    exact (aggregateFlow_submissions execId dryRun d avail o p hp).2.1
  · intro hpos hdry ⟨id0, ho⟩
    unfold aggregateFlow
    rw [if_neg (not_le.2 hpos), hdry]
    simp only [Bool.false_eq_true, if_false]
    have hrun : runRetry o (amountToTransferCents d avail)
        = ([AggStep.stripeSubmit (amountToTransferCents d avail) none], true) := by
      unfold runRetry retryGo
      rw [ho]
    rw [hrun]
    simp [flowSubmissions]

/-- The datastore state for the idempotency counterexample: an application
balance of $50 and nothing else. -/
def db50 : AggDb := ⟨some 50, [], [], [], []⟩

/-- A processor that accepts the first submission of every invocation. -/
def oOkFlow : Nat → TransferOutcome := fun _ => .ok "tr_ok"

theorem db50_amount : amountToTransferCents db50 10000 = 5000 := by
  norm_num [amountToTransferCents, aggregateCents, aggregateUSD, appBalanceUSD,
    artUSD, consBalUSD, consAmountsUSD, earningsUSD, db50, round_eq]

/-- C5 counterexample.  With $50 aggregated, $100 available and an
accepting processor: the persisted row has status `processing` (not
`pending`) and no idempotency key; the flow's first step is the
balance-retrieval network call, before the insert; and re-running the
same payout (a second invocation over the same state) performs a second
external submission with no idempotency key — two distinct external
payouts, the second call does not return the original outcome. -/
theorem no_idempotency_key_cex :
    (aggregateFlow "aggregate_1" false db50 10000 oOkFlow).insertedRow
        = some ⟨5000, "processing", false, "aggregate_1"⟩
    ∧ (aggregateFlow "aggregate_1" false db50 10000 oOkFlow).steps.head?
        = some AggStep.balanceRetrieve
    ∧ flowSubmissions (aggregateFlow "aggregate_1" false db50 10000 oOkFlow)
        = [(5000, none)]
    ∧ flowSubmissions (aggregateFlow "aggregate_2" false db50 10000 oOkFlow)
        = [(5000, none)] := by
  have hflow : ∀ execId, aggregateFlow execId false db50 10000 oOkFlow
      = { steps := [.balanceRetrieve, .dbReads, .insertTransferRow "processing" false,
            .stripeSubmit 5000 none, .updateTransferRow "completed",
            .insertLog "completed"],
          insertedRow := some ⟨5000, "processing", false, execId⟩,
          succeeded := true } := by
    intro execId
    unfold aggregateFlow
    rw [db50_amount]
    norm_num [runRetry, retryGo, oOkFlow]
  rw [hflow, hflow]
  refine ⟨rfl, rfl, rfl, rfl⟩

/-! ## The automated-full-transfer-scheduler admission check -/

/-- The `{run, reason}` object `shouldRunTransfer` returns (the optional
`next_run` field is irrelevant to the claims). -/
structure RunDecision where
  run : Bool
  reason : String
deriving Repr, DecidableEq

/-- `shouldRunTransfer`: manual triggers always run; if fetching the last
completed run errors, the run proceeds; otherwise the schedule-specific
window is compared against the last completed `execution_time`
(milliseconds); unknown schedule types never run.  `lastCompleted` is the
result of the (unlocked, read-only) query of `automated_transfer_logs`. -/
def shouldRunTransfer (scheduleType : String)
    (lastCompleted : Except String (Option Int)) (nowMs : Int) : RunDecision :=
  if scheduleType = "manual" then ⟨true, "Manual trigger"⟩
  else
    match lastCompleted with
    | .error _ => ⟨true, "Error checking last run, proceeding with run"⟩
    | .ok lastRun =>
        if scheduleType = "hourly" then
          match lastRun with
          | some t =>
              if nowMs - t < 3600000 then ⟨false, "Last run was less than 1 hour ago"⟩
              else ⟨true, "Scheduled hourly transfer ready"⟩
          | none => ⟨true, "Scheduled hourly transfer ready"⟩
        else if scheduleType = "daily" then
          match lastRun with
          | some t =>
              if nowMs - t < 86400000 then ⟨false, "Last run was less than 24 hours ago"⟩
              else ⟨true, "Scheduled daily transfer ready"⟩
          | none => ⟨true, "Scheduled daily transfer ready"⟩
        else if scheduleType = "weekly" then
          match lastRun with
          | some t =>
              if nowMs - t < 604800000 then ⟨false, "Last run was less than 7 days ago"⟩
              else ⟨true, "Scheduled weekly transfer ready"⟩
          | none => ⟨true, "Scheduled weekly transfer ready"⟩
        else ⟨false, "Unknown schedule type"⟩

/-! ## Claim C9: no mutual exclusion across overlapping invocations -/

/-- Shared state seen by overlapping scheduler invocations: the last
completed log entry, one positive balance, and the external transfers
submitted so far. -/
structure SharedState where
  lastCompleted : Option Int
  balance : ℚ
  transfers : List ℚ
deriving Repr, DecidableEq

/-- Program counter of one invocation, phase by phase: admission check
(reads the log), scan (reads the balance), transfer (submits the observed
amount externally), then consumption and completion logging.  The
suspension points between phases are the network calls of the real flow;
no lock is taken at any point. -/
inductive InvPhase where
  | start
  | checked (go : Bool)
  | scanned (obs : ℚ)
  | transferred (obs : ℚ)
  | finished
deriving Repr, DecidableEq

/-- One atomic phase of one invocation against the shared state. -/
def invStep (scheduleType : String) (nowMs : Int) (pc : InvPhase)
    (s : SharedState) : InvPhase × SharedState :=
  match pc with
  | .start =>
      (.checked (shouldRunTransfer scheduleType (.ok s.lastCompleted) nowMs).run, s)
  | .checked go => if go then (.scanned s.balance, s) else (.finished, s)
  | .scanned obs =>
      if 0 < obs then (.transferred obs, { s with transfers := s.transfers ++ [obs] })
      else (.finished, s)
  | .transferred _ =>
      (.finished, { s with balance := 0, lastCompleted := some nowMs })
  | .finished => (.finished, s)

/-- Two overlapping invocations A and B over the shared state. -/
structure TwoRuns where
  pcA : InvPhase
  pcB : InvPhase
  shared : SharedState
deriving Repr, DecidableEq

/-- Advance invocation A (`true`) or B (`false`) by one phase. -/
def twoStep (scheduleType : String) (nowMs : Int) (st : TwoRuns) (pickA : Bool) :
    TwoRuns :=
  if pickA then
    let r := invStep scheduleType nowMs st.pcA st.shared
    { st with pcA := r.1, shared := r.2 }
  else
    let r := invStep scheduleType nowMs st.pcB st.shared
    { st with pcB := r.1, shared := r.2 }

/-- Run two overlapping invocations under an interleaving schedule. -/
def runSchedule (scheduleType : String) (nowMs : Int) (sched : List Bool)
    (st : TwoRuns) : TwoRuns :=
  sched.foldl (twoStep scheduleType nowMs) st

/-- C9 counterexample.  No guard excludes overlapping invocations: two
manual runs are both admitted whatever the recorded state, and under the
interleaving where both scan before either consumes, both observe the same
$75 balance and both transfer it — $150 moved out against $75 of ledger, a
double spend. -/
theorem overlapping_runs_double_spend_cex :
    (shouldRunTransfer "manual" (Except.ok none) 1000).run = true
    ∧ (runSchedule "manual" 1000 [true, false, true, false, true, false, true, false]
        ⟨InvPhase.start, InvPhase.start, ⟨none, 75, []⟩⟩).shared.transfers = [75, 75]
    ∧ ¬ ((75 : ℚ) + 75 ≤ 75) := by
  refine ⟨rfl, ?_, by norm_num⟩
  norm_num [runSchedule, twoStep, invStep, shouldRunTransfer]

/-- C9 (amended).  The implementation has no mutual-exclusion guard:
`shouldRunTransfer` admits every manual trigger regardless of the recorded
state, admits the run when the log read errors, admits every reader that
sees no completed run (so two concurrent time-based invocations reading
the log before either writes are both admitted), and no lock is held over
the Scan→Execute→Consume span — an interleaving exists in which two
overlapping runs both observe and transfer the same positive balance. -/
theorem no_mutual_exclusion_guard (q : Except String (Option Int)) (nowMs : Int) :
    (shouldRunTransfer "manual" q nowMs).run = true
    ∧ (shouldRunTransfer "hourly" (Except.error "log read failed") nowMs).run = true
    ∧ (shouldRunTransfer "hourly" (Except.ok none) nowMs).run = true
    ∧ ∃ sched : List Bool,
        (runSchedule "manual" 1000 sched
          ⟨InvPhase.start, InvPhase.start, ⟨none, 75, []⟩⟩).shared.transfers
          = [75, 75] := by
  refine ⟨?_, rfl, rfl, ⟨[true, false, true, false, true, false, true, false], ?_⟩⟩
  · unfold shouldRunTransfer
    rfl
  · norm_num [runSchedule, twoStep, invStep, shouldRunTransfer]
